import Mathlib

/-! Verification of the buffer-management and label-resolution core of the
asmjit `Assembler` (assembler.cpp), as a shallow embedding: the emitter
state is explicit, machine integers are `Nat`/`Int` with explicit wrapping
where the C code truncates, and every operation returns an error code
together with the successor state.
-/

namespace AsmJit

/-- Error codes returned by the emitter (subset of asmjit error codes that
assembler.cpp can produce). `Option AError` with `none` plays `kErrorOk`. -/
inductive AError where
  | invalidArgument
  | invalidLabel
  | labelAlreadyBound
  | invalidDisplacement
  | noHeapMemory
deriving DecidableEq, Repr

/-- Result code of a call: `none` is success (`kErrorOk`). -/
abbrev Err := Option AError

/-- A pending patch (asmjit `LabelLink`): buffer offset of the patch site,
signed addend (`rel`), and either a relocation id or `none` for an inline
displacement patch. -/
structure LabelLink where
  offset : Nat
  rel : Int
  relocId : Option Nat
deriving DecidableEq, Repr

/-- Modelled from the spec: the holder's `LabelEntry` layout (codeholder.h is
not part of the analysed sources) — bound flag, section id, bound offset,
optional name, and the head of the pending-patch chain. The chain is a list
in traversal order (most recently attached first, matching the `prev`
pointer walk in `Assembler::bind`). -/
structure LabelEntry where
  bound : Bool
  sectionId : Nat
  offset : Nat
  name : Option String
  links : List LabelLink
deriving DecidableEq, Repr

/-- Modelled from the spec: the holder's `RelocEntry` (codeholder.h is not in
the analysed sources) — kind, byte width, source section and offset, target
section, and a 64-bit resolved value (`_data`). -/
structure RelocEntry where
  kind : Nat
  size : Nat
  sourceSectionId : Nat
  sourceOffset : Nat
  targetSectionId : Option Nat
  data : Nat
deriving DecidableEq, Repr

/-- A section's code buffer: `data` is the backing byte store (its length is
the capacity) and `length` is the committed length tracked by the holder. -/
structure CodeBuffer where
  data : List Nat
  length : Nat
deriving DecidableEq, Repr

/-- An operand as seen by the emission plumbing; the core never interprets
operands, it only forwards them, so the payload is abstract. `noneOp` is a
reset/none operand (`Operand_::reset`, `_none`). -/
inductive Op where
  | noneOp
  | someOp : Nat → Op
deriving DecidableEq, Repr

/-- The assembler state: sticky error, active section id, that section's
buffer, the cursor as an offset (`_bufferPtr - _bufferData`), the native
GP register size, the holder's label and relocation tables, the unresolved
label counter, pending inline comment, and the two spare operand slots with
their presence flag (`Inst::kOptionOp4Op5Used`). -/
structure AsmState where
  lastError : Err
  sectionId : Nat
  buffer : CodeBuffer
  cursor : Nat
  gpSize : Nat
  labels : List LabelEntry
  relocations : List RelocEntry
  unresolvedLabelCount : Nat
  inlineComment : Option String
  op4 : Op
  op5 : Op
  op45Used : Bool
deriving DecidableEq, Repr

/-- `setLastError`: records the error as sticky and returns it. -/
def setLastError (s : AsmState) (e : AError) : Err × AsmState :=
  (some e, { s with lastError := some e })

/-- Modelled from the spec: the holder's label lookup (`getLabelEntry`);
label id 0 is the invalid sentinel, other ids index the label table. -/
def getLabelEntry (s : AsmState) (id : Nat) : Option LabelEntry :=
  if id = 0 then none else s.labels.get? (id - 1)

/-- Two's-complement truncation to a signed 32-bit value, as performed by
`static_cast<int32_t>` on the patched displacement. -/
def wrap32 (x : Int) : Int :=
  let m := x % 4294967296
  if m < 2147483648 then m else m - 4294967296

/-- `IntUtils::isInt8`: the value fits the signed 8-bit range. -/
def isInt8 (x : Int) : Prop := -128 ≤ x ∧ x ≤ 127

instance (x : Int) : Decidable (isInt8 x) := by unfold isInt8; infer_instance

/-- Write a list of bytes into the backing store starting at offset `o`
(`memcpy`); writes beyond the store's length are dropped by `List.set`,
but every use in this development stays in bounds. -/
def writeBytes (l : List Nat) (o : Nat) : List Nat → List Nat
  | [] => l
  | b :: bs => writeBytes (l.set o b) (o + 1) bs

/-- Read `n` bytes starting at offset `o` (out-of-range reads give 0). -/
def readBytes (l : List Nat) : Nat → Nat → List Nat
  | _, 0 => []
  | o, n + 1 => l.getD o 0 :: readBytes l (o + 1) n

/-- The little-endian byte image of a value truncated to 32 bits
(`Utils::writeI32u`). -/
def u32bytes (v : Int) : List Nat :=
  let u := (v % 4294967296).toNat
  [u % 256, u / 256 % 256, u / 65536 % 256, u / 16777216 % 256]

/-- `Utils::writeI32u`: store a 32-bit value as 4 little-endian bytes. -/
def writeI32u (l : List Nat) (o : Nat) (v : Int) : List Nat :=
  writeBytes l o (u32bytes v)

/-- Read back 4 bytes at `o` as an unsigned 32-bit value. -/
def readU32 (l : List Nat) (o : Nat) : Nat :=
  l.getD o 0 + 256 * l.getD (o + 1) 0 + 65536 * l.getD (o + 2) 0 +
    16777216 * l.getD (o + 3) 0

/-- Read back 4 bytes at `o` as a signed 32-bit value. -/
def readI32 (l : List Nat) (o : Nat) : Int :=
  let u := readU32 l o
  if u < 2147483648 then (u : Int) else (u : Int) - 4294967296

/-- Read back 1 byte at `o` as a signed 8-bit value. -/
def readI8 (l : List Nat) (o : Nat) : Int :=
  let u := l.getD o 0
  if u < 128 then (u : Int) else (u : Int) - 256

/-- `Assembler::setOffset`: reposition the cursor. Fails with
invalid-argument if the requested offset exceeds `max(committed length,
current cursor offset)`; otherwise syncs the committed length up to that
maximum and moves the cursor. -/
def setOffset (s : AsmState) (offset : Nat) : Err × AsmState :=
  match s.lastError with
  | some e => (some e, s)
  | none =>
    let length := max s.buffer.length s.cursor
    if offset > length then setLastError s .invalidArgument
    else
      let buf := if s.buffer.length < length then { s.buffer with length := length }
                 else s.buffer
      (none, { s with buffer := buf, cursor := offset })

/-- Modelled from the spec: the holder's `newLabelId` (codeholder.cpp is not
in the analysed sources) — mints a fresh id and stores an unbound entry with
an empty patch chain; the model never runs out of memory. -/
def newLabelId (s : AsmState) : Nat × AsmState :=
  (s.labels.length + 1,
   { s with labels := s.labels ++ [⟨false, 0, 0, none, []⟩] })

/-- `Assembler::newLabel`: fails closed on a sticky error, returning the
sentinel `Label(0)` with no holder mutation; otherwise asks the holder for a
fresh id. -/
def newLabel (s : AsmState) : Nat × AsmState :=
  match s.lastError with
  | some _ => (0, s)
  | none => newLabelId s

/-- Modelled from the spec: the holder's `newNamedLabelId` — same as
`newLabelId` plus a display name (kind and parent id govern naming policy
inside the holder and are not modelled further). -/
def newNamedLabelId (s : AsmState) (name : String) : Nat × AsmState :=
  (s.labels.length + 1,
   { s with labels := s.labels ++ [⟨false, 0, 0, some name, []⟩] })

/-- `Assembler::newNamedLabel`: fails closed on a sticky error, returning the
sentinel `Label(0)` with no holder mutation. -/
def newNamedLabel (s : AsmState) (name : String) : Nat × AsmState :=
  match s.lastError with
  | some _ => (0, s)
  | none => newNamedLabelId s name

/-- One iteration of the patch loop in `Assembler::bind`: a link carrying a
relocation id adds the bound position into that relocation's 64-bit resolved
value; an inline link computes `patched = (int32)(pos - offset + rel)`,
reads the patch width from the buffer byte at the patch site, writes 4
little-endian bytes for width 4, one byte for width 1 when the value fits
int8, and is an invalid-displacement error otherwise. -/
def processLink (buf : CodeBuffer) (relocs : List RelocEntry) (pos : Nat)
    (link : LabelLink) : Err × CodeBuffer × List RelocEntry :=
  match link.relocId with
  | some rid =>
    match relocs.get? rid with
    | some re =>
      (none, buf,
       relocs.set rid { re with data := (re.data + pos) % 18446744073709551616 })
    | none => (none, buf, relocs)
  | none =>
    let patched := wrap32 ((pos : Int) - (link.offset : Int) + link.rel)
    let size := buf.data.getD link.offset 0
    if size = 4 then
      (none, { buf with data := writeI32u buf.data link.offset patched }, relocs)
    else if size = 1 ∧ isInt8 patched then
      (none, { buf with data := buf.data.set link.offset (patched % 256).toNat },
       relocs)
    else (some .invalidDisplacement, buf, relocs)

/-- The full patch loop of `Assembler::bind`: walks the chain, applying
`processLink` to each node, keeping the last per-patch error (each success
leaves the accumulated error untouched), decrementing the unresolved-label
counter and releasing the node; the final component collects the released
nodes in order. -/
def processLinks (pos : Nat) :
    List LabelLink → Err → CodeBuffer → List RelocEntry → Nat →
    Err × CodeBuffer × List RelocEntry × Nat × List LabelLink
  | [], err, buf, relocs, cnt => (err, buf, relocs, cnt, [])
  | link :: rest, err, buf, relocs, cnt =>
    let step := processLink buf relocs pos link
    let err' := match step.1 with
      | some x => some x
      | none => err
    let r := processLinks pos rest err' step.2.1 step.2.2 (cnt - 1)
    (r.1, r.2.1, r.2.2.1, r.2.2.2.1, link :: r.2.2.2.2)

/-- `Assembler::bind`: sticky-error check, then label lookup (invalid-label
if none), already-bound check, then the patch loop at the current cursor
position; the entry is then marked bound at the active section and cursor
offset with its chain emptied and the pending inline comment cleared, and a
per-patch error (if any) is made sticky and returned. -/
def bind (s : AsmState) (id : Nat) : Err × AsmState :=
  match s.lastError with
  | some e => (some e, s)
  | none =>
    match getLabelEntry s id with
    | none => setLastError s .invalidLabel
    | some le =>
      if le.bound then setLastError s .labelAlreadyBound
      else
        let pos := s.cursor
        let r := processLinks pos le.links none s.buffer s.relocations
          s.unresolvedLabelCount
        let s' : AsmState := { s with
          buffer := r.2.1,
          relocations := r.2.2.1,
          unresolvedLabelCount := r.2.2.2.1,
          labels := s.labels.set (id - 1)
            { le with bound := true, sectionId := s.sectionId, offset := pos,
                      links := [] },
          inlineComment := none }
        match r.1 with
        | some e => setLastError s' e
        | none => (none, s')

/-- Modelled from the spec: `CodeHolder::growBuffer` (codeholder.cpp is not
in the analysed sources) — grows the section's backing store by at least `n`
bytes; the model grows by exactly `n` zero bytes and never fails. -/
def growBuffer (buf : CodeBuffer) (n : Nat) : CodeBuffer :=
  { buf with data := buf.data ++ List.replicate n 0 }

/-- `getRemainingSpace` (`_bufferEnd - _bufferPtr`). -/
def getRemainingSpace (s : AsmState) : Nat :=
  s.buffer.data.length - s.cursor

/-- `Assembler::embed`: sticky-error check, growth when remaining space is
short, verbatim copy of the bytes at the cursor, cursor advance by the byte
count. -/
def embed (s : AsmState) (data : List Nat) : Err × AsmState :=
  match s.lastError with
  | some e => (some e, s)
  | none =>
    let s1 := if getRemainingSpace s < data.length
              then { s with buffer := growBuffer s.buffer data.length } else s
    (none,
     { s1 with
       buffer := { s1.buffer with data := writeBytes s1.buffer.data s1.cursor data },
       cursor := s1.cursor + data.length })

/-- `Assembler::embedLabel`: sticky-error check, label lookup, growth for a
GP-sized slot, creation of a rel-to-abs relocation entry (modelled from the
spec: the holder's `newRelocEntry` creates it with resolved value 0 and no
target section) whose source is the active section and cursor; a bound label
fills the target section and resolved value immediately, an unbound one gets
a pending patch carrying the relocation id prepended to its chain (the
holder's `newLabelLink` also counts one more unresolved label); finally the
slot is zero-filled and the cursor advances by the slot size. -/
def embedLabel (s : AsmState) (id : Nat) : Err × AsmState :=
  match s.lastError with
  | some e => (some e, s)
  | none =>
    match getLabelEntry s id with
    | none => setLastError s .invalidLabel
    | some le =>
      let size := s.gpSize
      let s1 := if getRemainingSpace s < size
                then { s with buffer := growBuffer s.buffer size } else s
      let reId := s1.relocations.length
      let re : RelocEntry :=
        { kind := 2, size := size, sourceSectionId := s1.sectionId,
          sourceOffset := s1.cursor, targetSectionId := none, data := 0 }
      let s2 :=
        if le.bound then
          { s1 with relocations := s1.relocations ++
              [{ re with targetSectionId := some le.sectionId, data := le.offset }] }
        else
          { s1 with
            relocations := s1.relocations ++ [re],
            labels := s1.labels.set (id - 1)
              { le with links := ⟨s1.cursor, 0, some reId⟩ :: le.links },
            unresolvedLabelCount := s1.unresolvedLabelCount + 1 }
      (none,
       { s2 with
         buffer := { s2.buffer with
           data := writeBytes s2.buffer.data s2.cursor (List.replicate size 0) },
         cursor := s2.cursor + size })

/-- A constant pool as `embedConstPool` consumes it: required alignment and
serialized byte image (constpool.cpp is not in the analysed sources). -/
structure ConstPool where
  alignment : Nat
  bytes : List Nat
deriving DecidableEq, Repr

/-- `CodeEmitter::isLabelValid`: the label id resolves to an entry. -/
def isLabelValid (s : AsmState) (id : Nat) : Bool :=
  (getLabelEntry s id).isSome

/-- Modelled from the spec: `align(kAlignData, n)` (the align routine lives
in the architecture backend, not in the analysed sources) — advances the
cursor to the next multiple of the alignment, padding with zero bytes. -/
def alignCursor (s : AsmState) (alignment : Nat) : Err × AsmState :=
  if alignment ≤ 1 then (none, s)
  else
    let rem := s.cursor % alignment
    if rem = 0 then (none, s)
    else embed s (List.replicate (alignment - rem) 0)

/-- `Assembler::embedConstPool`: sticky-error check, then a label-validity
check whose failure is returned directly (not made sticky), then alignment,
binding the label at the aligned cursor, growth for the pool image, and a
verbatim copy of the pool bytes with cursor advance. -/
def embedConstPool (s : AsmState) (id : Nat) (pool : ConstPool) :
    Err × AsmState :=
  match s.lastError with
  | some e => (some e, s)
  | none =>
    if !(isLabelValid s id) then (some .invalidLabel, s)
    else
      let a := alignCursor s pool.alignment
      match a.1 with
      | some e => (some e, a.2)
      | none =>
        let b := bind a.2 id
        match b.1 with
        | some e => (some e, b.2)
        | none =>
          let s2 := b.2
          let size := pool.bytes.length
          let s3 := if getRemainingSpace s2 < size
                    then { s2 with buffer := growBuffer s2.buffer size } else s2
          (none,
           { s3 with
             buffer := { s3.buffer with
               data := writeBytes s3.buffer.data s3.cursor pool.bytes },
             cursor := s3.cursor + size })

/-- The instruction call handed to the architecture backend's 4-operand
entry point `_emit(instId, o0, o1, o2, o3)`. -/
structure EmitCall where
  instId : Nat
  o0 : Op
  o1 : Op
  o2 : Op
  o3 : Op
deriving DecidableEq, Repr

/-- Modelled from the spec: the architecture-specific 4-operand `_emit`
entry point is an external encoder; it is modelled as recording the
dispatched call and succeeding, leaving emitter state untouched. -/
def emit4 (s : AsmState) (instId : Nat) (o0 o1 o2 o3 : Op) :
    Err × AsmState × EmitCall :=
  (none, s, ⟨instId, o0, o1, o2, o3⟩)

/-- `Assembler::_emitOpArray`: the switch on the operand count — counts 0-4
pad with none operands and go straight to the 4-operand entry point; count 5
caches operand 4 in the spare slot, resets the second spare slot and sets
the presence flag; count 6 caches both spare slots and sets the flag; any
other count returns invalid-argument directly (not made sticky). -/
def emitOpArray (s : AsmState) (instId : Nat) (ops : List Op) :
    Err × AsmState × Option EmitCall :=
  match ops with
  | [] =>
    let r := emit4 s instId .noneOp .noneOp .noneOp .noneOp
    (r.1, r.2.1, some r.2.2)
  | [a] =>
    let r := emit4 s instId a .noneOp .noneOp .noneOp
    (r.1, r.2.1, some r.2.2)
  | [a, b] =>
    let r := emit4 s instId a b .noneOp .noneOp
    (r.1, r.2.1, some r.2.2)
  | [a, b, c] =>
    let r := emit4 s instId a b c .noneOp
    (r.1, r.2.1, some r.2.2)
  | [a, b, c, d] =>
    let r := emit4 s instId a b c d
    (r.1, r.2.1, some r.2.2)
  | [a, b, c, d, e] =>
    let s' := { s with op4 := e, op5 := .noneOp, op45Used := true }
    let r := emit4 s' instId a b c d
    (r.1, r.2.1, some r.2.2)
  | [a, b, c, d, e, f] =>
    let s' := { s with op4 := e, op5 := f, op45Used := true }
    let r := emit4 s' instId a b c d
    (r.1, r.2.1, some r.2.2)
  | _ => (some .invalidArgument, s, none)

/-- A concrete assembler state used by the witness theorems: a fresh emitter
attached to a 64-byte section, no labels, no relocations. -/
def baseState : AsmState :=
  { lastError := none, sectionId := 0,
    buffer := { data := List.replicate 64 0, length := 0 },
    cursor := 0, gpSize := 8, labels := [], relocations := [],
    unresolvedLabelCount := 0, inlineComment := none,
    op4 := .noneOp, op5 := .noneOp, op45Used := false }

/-- The state for the C4 witness: one label whose chain holds a failing
width-1 inline patch at offset 0 and a relocation patch, one relocation
entry, cursor at 300. -/
def c4State : AsmState :=
  { lastError := none, sectionId := 0,
    buffer := { data := [1], length := 0 },
    cursor := 300, gpSize := 8,
    labels := [⟨false, 0, 0, none, [⟨0, 0, none⟩, ⟨8, 0, some 0⟩]⟩],
    relocations := [⟨2, 8, 0, 8, none, 0⟩],
    unresolvedLabelCount := 2, inlineComment := none,
    op4 := .noneOp, op5 := .noneOp, op45Used := false }

/-- The state for the C1 witness: a single width-4 inline patch at offset 0
(marker byte 4 at the patch site), label 1 unbound, cursor at 8. -/
def c1State : AsmState :=
  { lastError := none, sectionId := 0,
    buffer := { data := [4, 0, 0, 0], length := 0 },
    cursor := 8, gpSize := 8,
    labels := [⟨false, 0, 0, none, [⟨0, 0, none⟩]⟩],
    relocations := [], unresolvedLabelCount := 1, inlineComment := none,
    op4 := .noneOp, op5 := .noneOp, op45Used := false }

/-- The state for the C2 witness: the spec's scenario — label 1 fresh and
unbound, cursor at offset 10, 8-byte GP size, 18 bytes of capacity (so the
32-byte embed that follows exercises growth). -/
def c2State : AsmState :=
  { lastError := none, sectionId := 0,
    buffer := { data := List.replicate 18 0, length := 0 },
    cursor := 10, gpSize := 8,
    labels := [⟨false, 0, 0, none, []⟩],
    relocations := [], unresolvedLabelCount := 0, inlineComment := none,
    op4 := .noneOp, op5 := .noneOp, op45Used := false }

-- Helper lemmas about the byte-level primitives

theorem writeBytes_length (src : List Nat) (l : List Nat) (o : Nat) :
    (writeBytes l o src).length = l.length := by
  induction src generalizing l o with
  | nil => rfl
  | cons b bs ih => simp [writeBytes, ih]

theorem getD_writeBytes_lt (src : List Nat) (l : List Nat) (o i : Nat)
    (h : i < o) : (writeBytes l o src).getD i 0 = l.getD i 0 := by
  induction src generalizing l o with
  | nil => rfl
  | cons b bs ih =>
    rw [writeBytes, ih _ _ (Nat.lt_succ_of_lt h)]
    simp [List.getD_eq_getD_get?, List.getElem?_set_ne (Nat.ne_of_gt h)]

theorem readBytes_writeBytes (src : List Nat) (l : List Nat) (o : Nat)
    (h : o + src.length ≤ l.length) :
    readBytes (writeBytes l o src) o src.length = src := by
  induction src generalizing l o with
  | nil => rfl
  | cons b bs ih =>
    have hlen : (b :: bs).length = bs.length + 1 := rfl
    rw [hlen, writeBytes, readBytes]
    have ho : o < l.length := by
      have := h; simp only [List.length_cons] at this; omega
    congr 1
    · rw [getD_writeBytes_lt bs _ _ _ (Nat.lt_succ_self o)]
      simp [List.getD_eq_getD_get?, List.getElem?_set_eq_of_lt _ ho]
    · refine ih _ _ ?_
      simp only [List.length_set, List.length_cons] at h ⊢
      omega

theorem wrap32_eq_self (x : Int) (h1 : -2147483648 ≤ x)
    (h2 : x < 2147483648) : wrap32 x = x := by
  show (if x % 4294967296 < 2147483648 then x % 4294967296
        else x % 4294967296 - 4294967296) = x
  split <;> omega

theorem readI32_writeI32u (l : List Nat) (o : Nat) (v : Int)
    (hle : o + 4 ≤ l.length) (h1 : -2147483648 ≤ v) (h2 : v < 2147483648) :
    readI32 (writeI32u l o v) o = v := by
  have hr := readBytes_writeBytes (u32bytes v) l o
    (by simpa [u32bytes] using hle)
  rw [writeI32u] at *
  set L := writeBytes l o (u32bytes v) with hL
  set u := (v % 4294967296).toNat with hu
  have hnn : (0 : Int) ≤ v % 4294967296 := Int.emod_nonneg v (by norm_num)
  have huv : (u : Int) = v % 4294967296 := Int.toNat_of_nonneg hnn
  have hlt : u < 4294967296 := by omega
  have h0 : L.getD o 0 = u % 256 := by
    have := congrArg (fun t => t.getD 0 0) hr
    simpa [readBytes, u32bytes] using this
  have hb1 : L.getD (o + 1) 0 = u / 256 % 256 := by
    have := congrArg (fun t => t.getD 1 0) hr
    simpa [readBytes, u32bytes] using this
  have hb2 : L.getD (o + 2) 0 = u / 65536 % 256 := by
    have := congrArg (fun t => t.getD 2 0) hr
    have he : o + 1 + 1 = o + 2 := by omega
    simpa [readBytes, u32bytes, he] using this
  have hb3 : L.getD (o + 3) 0 = u / 16777216 % 256 := by
    have := congrArg (fun t => t.getD 3 0) hr
    have he : o + 1 + 1 + 1 = o + 3 := by omega
    simpa [readBytes, u32bytes, he] using this
  rw [readI32, readU32, h0, hb1, hb2, hb3]
  have hsum : u % 256 + 256 * (u / 256 % 256) + 65536 * (u / 65536 % 256) +
      16777216 * (u / 16777216 % 256) = u := by omega
  rw [hsum]
  split <;> omega

theorem readI8_set (l : List Nat) (o : Nat) (v : Int) (ho : o < l.length)
    (h1 : -128 ≤ v) (h2 : v ≤ 127) :
    readI8 (l.set o (v % 256).toNat) o = v := by
  have hg : (l.set o (v % 256).toNat).getD o 0 = (v % 256).toNat := by
    simp [List.getD_eq_getD_get?, List.getElem?_set_eq_of_lt _ ho]
  rw [readI8, hg]
  have hnn : (0 : Int) ≤ v % 256 := Int.emod_nonneg v (by norm_num)
  have hne : ((v % 256).toNat : Int) = v % 256 := Int.toNat_of_nonneg hnn
  split <;> omega

-- Helper lemmas about the patch loop and embed

theorem processLinks_released (pos : Nat) (links : List LabelLink) (err : Err)
    (buf : CodeBuffer) (relocs : List RelocEntry) (cnt : Nat) :
    (processLinks pos links err buf relocs cnt).2.2.2.2 = links := by
  induction links generalizing err buf relocs cnt with
  | nil => rfl
  | cons a rest ih => simp [processLinks, ih]

theorem processLink_err (buf : CodeBuffer) (relocs : List RelocEntry)
    (pos : Nat) (link : LabelLink) :
    (processLink buf relocs pos link).1 = none ∨
    (processLink buf relocs pos link).1 = some .invalidDisplacement := by
  rw [processLink]
  rcases link.relocId with _ | rid
  · dsimp only
    split
    · left; rfl
    · split
      · left; rfl
      · right; rfl
  · dsimp only
    rcases relocs.get? rid with _ | re <;> simp

theorem processLinks_err (pos : Nat) (links : List LabelLink) (err : Err)
    (buf : CodeBuffer) (relocs : List RelocEntry) (cnt : Nat) :
    (processLinks pos links err buf relocs cnt).1 = err ∨
    (processLinks pos links err buf relocs cnt).1 = some .invalidDisplacement := by
  induction links generalizing err buf relocs cnt with
  | nil => left; rfl
  | cons a rest ih =>
    rw [processLinks]
    rcases processLink_err buf relocs pos a with h | h <;>
      rcases ih ((match (processLink buf relocs pos a).1 with
        | some x => some x | none => err)) (processLink buf relocs pos a).2.1
        (processLink buf relocs pos a).2.2
        (cnt - 1) with h2 | h2 <;> rw [h] at h2 <;> simp_all

theorem embed_spec (s : AsmState) (d : List Nat)
    (hok : s.lastError = none) (hcur : s.cursor ≤ s.buffer.data.length) :
    (embed s d).1 = none ∧
    (embed s d).2.cursor = s.cursor + d.length ∧
    readBytes (embed s d).2.buffer.data s.cursor d.length = d ∧
    (embed s d).2.lastError = none ∧
    (embed s d).2.labels = s.labels ∧
    (embed s d).2.relocations = s.relocations ∧
    (embed s d).2.sectionId = s.sectionId ∧
    (embed s d).2.gpSize = s.gpSize ∧
    (embed s d).2.unresolvedLabelCount = s.unresolvedLabelCount ∧
    s.cursor + d.length ≤ (embed s d).2.buffer.data.length := by
  rw [embed, hok]
  by_cases hg : getRemainingSpace s < d.length
  · rw [if_pos hg]
    have hfit : s.cursor + d.length ≤ (growBuffer s.buffer d.length).data.length := by
      simp [growBuffer]; omega
    refine ⟨rfl, rfl, ?_, rfl, rfl, rfl, rfl, rfl, rfl, ?_⟩
    · exact readBytes_writeBytes d _ _ hfit
    · show s.cursor + d.length ≤
        (writeBytes (growBuffer s.buffer d.length).data s.cursor d).length
      rw [writeBytes_length]; exact hfit
  · rw [if_neg hg]
    have hfit : s.cursor + d.length ≤ s.buffer.data.length := by
      rw [getRemainingSpace] at hg; omega
    refine ⟨rfl, rfl, ?_, hok, rfl, rfl, rfl, rfl, rfl, ?_⟩
    · exact readBytes_writeBytes d _ _ hfit
    · show s.cursor + d.length ≤ (writeBytes s.buffer.data s.cursor d).length
      rw [writeBytes_length]; exact hfit

/-- Shared by both `emitOpArray` claims: any operand count above 6 hits the
default switch case, which returns invalid-argument directly with no state
change. -/
theorem emitOpArray_gt6 (s : AsmState) (instId : Nat) (ops : List Op)
    (h : ops.length > 6) :
    emitOpArray s instId ops = (some .invalidArgument, s, none) := by
  rcases ops with _ | ⟨a, _ | ⟨b, _ | ⟨c, _ | ⟨d, _ | ⟨e, _ | ⟨f, _ | ⟨g, rest⟩⟩⟩⟩⟩⟩⟩ <;>
    first
      | rfl
      | (simp only [List.length_cons, List.length_nil] at h; omega)


/-- C7: a successful `embed(data, N)` copies the N bytes verbatim at the
prior cursor position (growing first when remaining space is short) and
advances the cursor by exactly N, so reading back N bytes at the prior
cursor offset reproduces the data exactly. -/
theorem embed_roundtrip (s : AsmState) (d : List Nat)
    (hok : s.lastError = none) (hcur : s.cursor ≤ s.buffer.data.length) :
    (embed s d).1 = none ∧
    (embed s d).2.cursor = s.cursor + d.length ∧
    readBytes (embed s d).2.buffer.data s.cursor d.length = d := by
  obtain ⟨h1, h2, h3, _⟩ := embed_spec s d hok hcur
  exact ⟨h1, h2, h3⟩

/-- Witness for C7: embedding 10 bytes into the fresh 64-byte state (also
exercising the statement when growth is not needed). -/
theorem embed_roundtrip_witness :
    (baseState.lastError = none ∧
     baseState.cursor ≤ baseState.buffer.data.length) ∧
    ((embed baseState [1, 2, 3, 4, 5, 6, 7, 8, 9, 10]).1 = none ∧
     (embed baseState [1, 2, 3, 4, 5, 6, 7, 8, 9, 10]).2.cursor =
       baseState.cursor + 10 ∧
     readBytes (embed baseState [1, 2, 3, 4, 5, 6, 7, 8, 9, 10]).2.buffer.data
       baseState.cursor 10 = [1, 2, 3, 4, 5, 6, 7, 8, 9, 10]) :=
  ⟨⟨rfl, by decide⟩,
   embed_roundtrip baseState [1, 2, 3, 4, 5, 6, 7, 8, 9, 10] rfl (by decide)⟩

/-- C3: binding an already-bound label returns label-already-bound with the
entry, chain, tables and cursor untouched (only the sticky error field is
written); binding a label with no entry returns invalid-label, likewise
leaving every entry, the cursor and the tables untouched. -/
theorem bind_precondition_errors (s : AsmState) (id : Nat) (le : LabelEntry)
    (hok : s.lastError = none) :
    (getLabelEntry s id = some le → le.bound = true →
      bind s id = (some .labelAlreadyBound,
        { s with lastError := some .labelAlreadyBound })) ∧
    (getLabelEntry s id = none →
      bind s id = (some .invalidLabel,
        { s with lastError := some .invalidLabel })) := by
  constructor
  · intro hle hb
    unfold bind
    rw [hok, hle]
    dsimp only
    rw [hb]
    rfl
  · intro hle
    unfold bind
    rw [hok, hle]
    rfl

/-- Witness for C3: a state with one bound label; binding label 1 again
fails with label-already-bound and label 2 (no entry) fails with
invalid-label, both leaving the state intact apart from the sticky error. -/
theorem bind_precondition_errors_witness :
    ({ baseState with labels := [⟨true, 0, 5, none, []⟩] }.lastError = none ∧
     getLabelEntry { baseState with labels := [⟨true, 0, 5, none, []⟩] } 1 =
       some ⟨true, 0, 5, none, []⟩ ∧
     getLabelEntry { baseState with labels := [⟨true, 0, 5, none, []⟩] } 2 =
       none) ∧
    (bind { baseState with labels := [⟨true, 0, 5, none, []⟩] } 1 =
      (some .labelAlreadyBound,
       { { baseState with labels := [⟨true, 0, 5, none, []⟩] } with
         lastError := some .labelAlreadyBound })) ∧
    (bind { baseState with labels := [⟨true, 0, 5, none, []⟩] } 2 =
      (some .invalidLabel,
       { { baseState with labels := [⟨true, 0, 5, none, []⟩] } with
         lastError := some .invalidLabel })) :=
  ⟨⟨rfl, by decide, by decide⟩,
   (bind_precondition_errors _ 1 ⟨true, 0, 5, none, []⟩ rfl).1 (by decide) rfl,
   (bind_precondition_errors _ 2 ⟨true, 0, 5, none, []⟩ rfl).2 (by decide)⟩

/-- C5: repositioning to offset n fails with invalid-argument exactly when n
exceeds max(committed length, cursor offset); otherwise it syncs the
committed length up to that maximum, moves the cursor to n, and a subsequent
embed writes at offset n. -/
theorem setOffset_reposition (s : AsmState) (n : Nat) (d : List Nat)
    (hok : s.lastError = none)
    (hlen : s.buffer.length ≤ s.buffer.data.length)
    (hcur : s.cursor ≤ s.buffer.data.length) :
    (n > max s.buffer.length s.cursor →
      (setOffset s n).1 = some .invalidArgument) ∧
    (n ≤ max s.buffer.length s.cursor →
      (setOffset s n).1 = none ∧
      (setOffset s n).2.cursor = n ∧
      (setOffset s n).2.buffer.length = max s.buffer.length s.cursor ∧
      (setOffset s n).2.buffer.data = s.buffer.data ∧
      readBytes (embed (setOffset s n).2 d).2.buffer.data n d.length = d) := by
  have hd : setOffset s n =
      (if n > max s.buffer.length s.cursor then setLastError s .invalidArgument
       else (none, { s with
         buffer := if s.buffer.length < max s.buffer.length s.cursor
           then { s.buffer with length := max s.buffer.length s.cursor }
           else s.buffer,
         cursor := n })) := by
    unfold setOffset
    rw [hok]
  constructor
  · intro hgt
    rw [hd, if_pos hgt]
    rfl
  · intro hle
    rw [hd, if_neg (by omega)]
    have hnd : n ≤ s.buffer.data.length := by
      have h1 := Nat.le_max_left s.buffer.length s.cursor
      have h2 := Nat.le_max_right s.buffer.length s.cursor
      omega
    by_cases hb : s.buffer.length < max s.buffer.length s.cursor
    · rw [if_pos hb]
      refine ⟨rfl, rfl, rfl, rfl, ?_⟩
      exact (embed_spec { s with
        buffer := { s.buffer with length := max s.buffer.length s.cursor },
        cursor := n } d hok hnd).2.2.1
    · rw [if_neg hb]
      have hbe : s.buffer.length = max s.buffer.length s.cursor := by
        have h1 := Nat.le_max_left s.buffer.length s.cursor
        omega
      refine ⟨rfl, rfl, hbe ▸ rfl, rfl, ?_⟩
      exact (embed_spec { s with cursor := n } d hok hnd).2.2.1

/-- Witness for C5: on a state with committed length 0 and cursor 16,
repositioning to 4 succeeds (the success side of the theorem, with a
2-byte write landing at offset 4), and the theorem also applies to the
failing offset 17 through its first conjunct. -/
theorem setOffset_reposition_witness :
    ({ baseState with cursor := 16 }.lastError = none ∧
     (4 ≤ max { baseState with cursor := 16 }.buffer.length
        { baseState with cursor := 16 }.cursor) ∧
     (17 > max { baseState with cursor := 16 }.buffer.length
        { baseState with cursor := 16 }.cursor)) ∧
    ((setOffset { baseState with cursor := 16 } 4).1 = none ∧
     (setOffset { baseState with cursor := 16 } 4).2.cursor = 4 ∧
     (setOffset { baseState with cursor := 16 } 4).2.buffer.length =
       max { baseState with cursor := 16 }.buffer.length
         { baseState with cursor := 16 }.cursor ∧
     (setOffset { baseState with cursor := 16 } 4).2.buffer.data =
       { baseState with cursor := 16 }.buffer.data ∧
     readBytes
       (embed (setOffset { baseState with cursor := 16 } 4).2 [7, 9]).2.buffer.data
       4 2 = [7, 9]) ∧
    (setOffset { baseState with cursor := 16 } 17).1 =
      some .invalidArgument :=
  ⟨⟨rfl, by decide, by decide⟩,
   (setOffset_reposition { baseState with cursor := 16 } 4 [7, 9] rfl
     (by decide) (by decide)).2 (by decide),
   (setOffset_reposition { baseState with cursor := 16 } 17 [] rfl
     (by decide) (by decide)).1 (by decide)⟩

/-- C6: with a sticky error set, bind, embed, embedLabel, embedConstPool and
setOffset all immediately return that same error with the state (buffer,
cursor, label table, relocation table) untouched, and newLabel and
newNamedLabel perform no holder mutation and return the sentinel label id
0. -/
theorem sticky_error_blocks_all (s : AsmState) (e : AError)
    (id n instId : Nat) (d : List Nat) (pool : ConstPool) (name : String)
    (h : s.lastError = some e) :
    bind s id = (some e, s) ∧
    embed s d = (some e, s) ∧
    embedLabel s id = (some e, s) ∧
    embedConstPool s id pool = (some e, s) ∧
    setOffset s n = (some e, s) ∧
    newLabel s = (0, s) ∧
    newNamedLabel s name = (0, s) := by
  unfold bind embed embedLabel embedConstPool setOffset newLabel newNamedLabel
  rw [h]
  exact ⟨rfl, rfl, rfl, rfl, rfl, rfl, rfl⟩

/-- Witness for C6: a fresh state with a sticky invalid-argument error
blocks every mutating call and newLabel returns the sentinel id 0. -/
theorem sticky_error_blocks_all_witness :
    ({ baseState with lastError := some .invalidArgument }.lastError =
      some .invalidArgument) ∧
    (bind { baseState with lastError := some .invalidArgument } 1 =
      (some .invalidArgument,
       { baseState with lastError := some .invalidArgument }) ∧
     embed { baseState with lastError := some .invalidArgument } [1, 2] =
      (some .invalidArgument,
       { baseState with lastError := some .invalidArgument }) ∧
     embedLabel { baseState with lastError := some .invalidArgument } 1 =
      (some .invalidArgument,
       { baseState with lastError := some .invalidArgument }) ∧
     embedConstPool { baseState with lastError := some .invalidArgument } 1
        ⟨4, [1, 2, 3, 4]⟩ =
      (some .invalidArgument,
       { baseState with lastError := some .invalidArgument }) ∧
     setOffset { baseState with lastError := some .invalidArgument } 0 =
      (some .invalidArgument,
       { baseState with lastError := some .invalidArgument }) ∧
     newLabel { baseState with lastError := some .invalidArgument } =
      (0, { baseState with lastError := some .invalidArgument }) ∧
     newNamedLabel { baseState with lastError := some .invalidArgument }
        "x" =
      (0, { baseState with lastError := some .invalidArgument })) :=
  ⟨rfl,
   sticky_error_blocks_all { baseState with lastError := some .invalidArgument }
     .invalidArgument 1 0 0 [1, 2] ⟨4, [1, 2, 3, 4]⟩ "x" rfl⟩

/-- C8: the operand-array wrapper accepts counts 0-6 — counts 0-4 dispatch
to the 4-operand entry point with missing operands replaced by none, count 5
caches the fifth operand in the spare slot, resets the sixth slot and sets
the presence flag, count 6 fills both spare slots and sets the flag; every
count above 6 fails with invalid-argument. -/
theorem emitOpArray_dispatch (s : AsmState) (instId : Nat) (ops : List Op) :
    (ops.length ≤ 4 →
      emitOpArray s instId ops =
        (none, s, some ⟨instId, ops.getD 0 .noneOp, ops.getD 1 .noneOp,
          ops.getD 2 .noneOp, ops.getD 3 .noneOp⟩)) ∧
    (ops.length = 5 →
      emitOpArray s instId ops =
        (none,
         { s with op4 := ops.getD 4 .noneOp, op5 := .noneOp, op45Used := true },
         some ⟨instId, ops.getD 0 .noneOp, ops.getD 1 .noneOp,
           ops.getD 2 .noneOp, ops.getD 3 .noneOp⟩)) ∧
    (ops.length = 6 →
      emitOpArray s instId ops =
        (none,
         { s with op4 := ops.getD 4 .noneOp, op5 := ops.getD 5 .noneOp,
                  op45Used := true },
         some ⟨instId, ops.getD 0 .noneOp, ops.getD 1 .noneOp,
           ops.getD 2 .noneOp, ops.getD 3 .noneOp⟩)) ∧
    (ops.length > 6 →
      emitOpArray s instId ops = (some .invalidArgument, s, none)) := by
  refine ⟨?_, ?_, ?_, fun h => emitOpArray_gt6 s instId ops h⟩ <;>
    rcases ops with _ | ⟨a, _ | ⟨b, _ | ⟨c, _ | ⟨d, _ | ⟨e, _ | ⟨f, _ | ⟨g, rest⟩⟩⟩⟩⟩⟩⟩ <;>
    intro h <;>
    first
      | rfl
      | (simp only [List.length_cons, List.length_nil] at h; omega)

/-- Witness for C8: applying the dispatch theorem at count 5 on the fresh
state — the fifth operand lands in the spare slot, the sixth slot is reset
and the presence flag is set. -/
theorem emitOpArray_dispatch_witness :
    ([Op.someOp 1, Op.someOp 2, Op.someOp 3, Op.someOp 4, Op.someOp 5].length
      = 5) ∧
    emitOpArray baseState 77
        [Op.someOp 1, Op.someOp 2, Op.someOp 3, Op.someOp 4, Op.someOp 5] =
      (none,
       { baseState with op4 := Op.someOp 5, op5 := .noneOp, op45Used := true },
       some ⟨77, Op.someOp 1, Op.someOp 2, Op.someOp 3, Op.someOp 4⟩) :=
  ⟨rfl,
   (emitOpArray_dispatch baseState 77
     [Op.someOp 1, Op.someOp 2, Op.someOp 3, Op.someOp 4, Op.someOp 5]).2.1
     rfl⟩

/-- C10: the two error paths that bypass the sticky-error mechanism —
embedConstPool with an invalid label and the operand-array wrapper with a
count above 6 — return their error directly, leaving the whole state (in
particular the sticky error field, still clear) unchanged, so subsequent
mutating calls proceed normally. -/
theorem direct_error_bypasses_sticky (s : AsmState) (id instId : Nat)
    (pool : ConstPool) (ops : List Op) (hok : s.lastError = none) :
    (getLabelEntry s id = none →
      embedConstPool s id pool = (some .invalidLabel, s) ∧
      (embedConstPool s id pool).2.lastError = none) ∧
    (ops.length > 6 →
      emitOpArray s instId ops = (some .invalidArgument, s, none) ∧
      (emitOpArray s instId ops).2.1.lastError = none) := by
  constructor
  · intro hle
    have he : embedConstPool s id pool = (some .invalidLabel, s) := by
      unfold embedConstPool
      rw [hok]
      unfold isLabelValid
      rw [hle]
      rfl
    exact ⟨he, by rw [he]; exact hok⟩
  · intro hlen
    have he := emitOpArray_gt6 s instId ops hlen
    exact ⟨he, by rw [he]; exact hok⟩

/-- Witness for C10: on the fresh state, embedConstPool with unknown label 1
and a 7-operand array both fail directly and leave the sticky error clear. -/
theorem direct_error_bypasses_sticky_witness :
    (baseState.lastError = none ∧ getLabelEntry baseState 1 = none ∧
     ([Op.someOp 1, Op.someOp 2, Op.someOp 3, Op.someOp 4, Op.someOp 5,
       Op.someOp 6, Op.someOp 7].length > 6)) ∧
    (embedConstPool baseState 1 ⟨4, [1, 2]⟩ = (some .invalidLabel, baseState) ∧
     (embedConstPool baseState 1 ⟨4, [1, 2]⟩).2.lastError = none) ∧
    (emitOpArray baseState 3
        [Op.someOp 1, Op.someOp 2, Op.someOp 3, Op.someOp 4, Op.someOp 5,
         Op.someOp 6, Op.someOp 7] =
       (some .invalidArgument, baseState, none) ∧
     (emitOpArray baseState 3
        [Op.someOp 1, Op.someOp 2, Op.someOp 3, Op.someOp 4, Op.someOp 5,
         Op.someOp 6, Op.someOp 7]).2.1.lastError = none) :=
  ⟨⟨rfl, by decide, by decide⟩,
   (direct_error_bypasses_sticky baseState 1 3 ⟨4, [1, 2]⟩
      [Op.someOp 1, Op.someOp 2, Op.someOp 3, Op.someOp 4, Op.someOp 5,
       Op.someOp 6, Op.someOp 7] rfl).1 (by decide),
   (direct_error_bypasses_sticky baseState 1 3 ⟨4, [1, 2]⟩
      [Op.someOp 1, Op.someOp 2, Op.someOp 3, Op.someOp 4, Op.someOp 5,
       Op.someOp 6, Op.someOp 7] rfl).2 (by decide)⟩

/-- Characterization of `bind` past its precondition checks, shared by the
patch-behaviour claims: the patch loop runs at the current cursor, the entry
is re-written as bound with an empty chain, the inline comment is cleared,
and a per-patch error (if any) is made sticky. -/
theorem bind_unbound_eq (s : AsmState) (id : Nat) (le : LabelEntry)
    (hok : s.lastError = none) (hle : getLabelEntry s id = some le)
    (hb : le.bound = false) :
    bind s id =
      (let r := processLinks s.cursor le.links none s.buffer s.relocations
         s.unresolvedLabelCount
       let s' : AsmState := { s with
         buffer := r.2.1,
         relocations := r.2.2.1,
         unresolvedLabelCount := r.2.2.2.1,
         labels := s.labels.set (id - 1)
           { le with bound := true, sectionId := s.sectionId,
                     offset := s.cursor, links := [] },
         inlineComment := none }
       match r.1 with
       | some e => (some e, { s' with lastError := some e })
       | none => (none, s')) := by
  unfold bind
  rw [hok, hle]
  dsimp only
  rw [hb]
  rfl

/-- C9: when an inline patch fails during bind, the label entry is mutated
anyway — marked bound at the active section and cursor offset with an empty
chain — the pending inline comment is cleared, and only then is the
invalid-displacement error recorded as sticky and returned. -/
theorem bind_failed_patch_still_mutates (s : AsmState) (id : Nat)
    (le : LabelEntry) (poff : Nat) (add : Int)
    (hok : s.lastError = none) (hle : getLabelEntry s id = some le)
    (hb : le.bound = false) (hlinks : le.links = [⟨poff, add, none⟩])
    (h4 : s.buffer.data.getD poff 0 ≠ 4)
    (h1 : ¬(s.buffer.data.getD poff 0 = 1 ∧
        isInt8 (wrap32 ((s.cursor : Int) - (poff : Int) + add)))) :
    bind s id = (some .invalidDisplacement,
      { s with
        labels := s.labels.set (id - 1)
          { le with bound := true, sectionId := s.sectionId,
                    offset := s.cursor, links := [] },
        unresolvedLabelCount := s.unresolvedLabelCount - 1,
        inlineComment := none,
        lastError := some .invalidDisplacement }) := by
  rw [bind_unbound_eq s id le hok hle hb]
  dsimp only
  rw [hlinks]
  dsimp only [processLinks, processLink]
  rw [if_neg h4, if_neg h1]

/-- Witness for C9: a single width-1 inline patch at offset 0 whose bind at
cursor 300 computes the out-of-range displacement 300; the entry is bound at
offset 300 with an emptied chain and the error is sticky. -/
theorem bind_failed_patch_still_mutates_witness :
    (({ baseState with
        buffer := { data := 1 :: List.replicate 63 0, length := 0 },
        cursor := 300,
        labels := [⟨false, 0, 0, none, [⟨0, 0, none⟩]⟩],
        unresolvedLabelCount := 1 } : AsmState).lastError = none ∧
     ¬(({ baseState with
        buffer := { data := 1 :: List.replicate 63 0, length := 0 },
        cursor := 300,
        labels := [⟨false, 0, 0, none, [⟨0, 0, none⟩]⟩],
        unresolvedLabelCount := 1 } : AsmState).buffer.data.getD 0 0 = 1 ∧
       isInt8 (wrap32 ((300 : Int) - (0 : Int) + 0)))) ∧
    bind { baseState with
        buffer := { data := 1 :: List.replicate 63 0, length := 0 },
        cursor := 300,
        labels := [⟨false, 0, 0, none, [⟨0, 0, none⟩]⟩],
        unresolvedLabelCount := 1 } 1 =
      (some .invalidDisplacement,
       { { baseState with
           buffer := { data := 1 :: List.replicate 63 0, length := 0 },
           cursor := 300,
           labels := [⟨false, 0, 0, none, [⟨0, 0, none⟩]⟩],
           unresolvedLabelCount := 1 } with
         labels := [⟨false, 0, 0, none, [⟨0, 0, none⟩]⟩].set 0
           ⟨true, 0, 300, none, []⟩,
         unresolvedLabelCount := 0,
         inlineComment := none,
         lastError := some .invalidDisplacement }) :=
  ⟨⟨rfl, by decide⟩,
   bind_failed_patch_still_mutates _ 1 ⟨false, 0, 0, none, [⟨0, 0, none⟩]⟩
     0 0 rfl (by decide) rfl rfl (by decide) (by decide)⟩

/-- C4: past the precondition checks, every node of the entry's pending
chain is released exactly once (the released sequence is exactly the chain),
regardless of per-patch success; the entry's chain is left empty; and the
error bind returns is the patch loop's aggregate error, which is
invalid-displacement whenever any patch failed (every per-patch failure is
that same error, so the first failure is what comes back) and is returned
only after the whole chain has been drained. -/
theorem bind_releases_all_links (s : AsmState) (id : Nat) (le : LabelEntry)
    (hok : s.lastError = none) (hle : getLabelEntry s id = some le)
    (hb : le.bound = false) :
    (processLinks s.cursor le.links none s.buffer s.relocations
        s.unresolvedLabelCount).2.2.2.2 = le.links ∧
    getLabelEntry (bind s id).2 id =
      some { le with bound := true, sectionId := s.sectionId,
                     offset := s.cursor, links := [] } ∧
    (bind s id).1 = (processLinks s.cursor le.links none s.buffer
        s.relocations s.unresolvedLabelCount).1 ∧
    ((bind s id).1 = none ∨ (bind s id).1 = some .invalidDisplacement) := by
  have hid : id ≠ 0 := by
    intro h
    rw [getLabelEntry, if_pos h] at hle
    exact Option.noConfusion hle
  have hlt : id - 1 < s.labels.length := by
    rw [getLabelEntry, if_neg hid] at hle
    rw [List.get?_eq_getElem?] at hle
    exact (List.getElem?_eq_some.mp hle).1
  have heq := bind_unbound_eq s id le hok hle hb
  have herr := processLinks_err s.cursor le.links none s.buffer s.relocations
    s.unresolvedLabelCount
  refine ⟨processLinks_released s.cursor le.links none s.buffer s.relocations
    s.unresolvedLabelCount, ?_, ?_, ?_⟩
  · rw [heq]
    dsimp only
    rw [getLabelEntry, if_neg hid]
    rcases hr : (processLinks s.cursor le.links none s.buffer s.relocations
        s.unresolvedLabelCount).1 with _ | e <;>
      dsimp only <;>
      rw [List.get?_eq_getElem?] <;>
      exact List.getElem?_set_self hlt
  · rw [heq]
    dsimp only
    rcases hr : (processLinks s.cursor le.links none s.buffer s.relocations
        s.unresolvedLabelCount).1 with _ | e <;> rfl
  · rw [heq]
    dsimp only
    rcases hr : (processLinks s.cursor le.links none s.buffer s.relocations
        s.unresolvedLabelCount).1 with _ | e
    · exact Or.inl rfl
    · rw [hr] at herr
      rcases herr with h | h
      · exact Option.noConfusion h
      · have hei : e = .invalidDisplacement := by injection h
        rw [hei]
        exact Or.inr rfl


/-- Witness for C4: on `c4State`, both chain nodes are released (the
released list equals the chain), the entry's chain ends empty, and the
aggregate invalid-displacement error is returned. -/
theorem bind_releases_all_links_witness :
    (c4State.lastError = none ∧
     getLabelEntry c4State 1 =
       some ⟨false, 0, 0, none, [⟨0, 0, none⟩, ⟨8, 0, some 0⟩]⟩) ∧
    ((processLinks c4State.cursor [⟨0, 0, none⟩, ⟨8, 0, some 0⟩] none
        c4State.buffer c4State.relocations
        c4State.unresolvedLabelCount).2.2.2.2 =
       [⟨0, 0, none⟩, ⟨8, 0, some 0⟩] ∧
     getLabelEntry (bind c4State 1).2 1 = some ⟨true, 0, 300, none, []⟩ ∧
     (bind c4State 1).1 = (processLinks c4State.cursor
        [⟨0, 0, none⟩, ⟨8, 0, some 0⟩] none c4State.buffer c4State.relocations
        c4State.unresolvedLabelCount).1 ∧
     ((bind c4State 1).1 = none ∨
      (bind c4State 1).1 = some .invalidDisplacement)) :=
  ⟨⟨rfl, by decide⟩,
   bind_releases_all_links c4State 1
     ⟨false, 0, 0, none, [⟨0, 0, none⟩, ⟨8, 0, some 0⟩]⟩ rfl (by decide) rfl⟩

/-- C1: for a pending patch without a relocation id consumed by bind, the
patched value is boundOffset - patchOffset + addend; it is written as 4
little-endian bytes when the width byte at the patch site is 4 (reading the
4 bytes back as a signed 32-bit value gives exactly that value), as 1 byte
when the width is 1 and the value fits the signed 8-bit range (reading the
byte back as a signed 8-bit value gives it), and otherwise bind fails with
an invalid-displacement error. -/
theorem bind_inline_patch (s : AsmState) (id : Nat) (le : LabelEntry)
    (poff : Nat) (add : Int)
    (hok : s.lastError = none) (hle : getLabelEntry s id = some le)
    (hb : le.bound = false) (hlinks : le.links = [⟨poff, add, none⟩])
    (hrange : poff + 4 ≤ s.buffer.data.length)
    (hfit : -2147483648 ≤ (s.cursor : Int) - (poff : Int) + add ∧
            (s.cursor : Int) - (poff : Int) + add < 2147483648) :
    (s.buffer.data.getD poff 0 = 4 →
      (bind s id).1 = none ∧
      readI32 (bind s id).2.buffer.data poff =
        (s.cursor : Int) - (poff : Int) + add) ∧
    (s.buffer.data.getD poff 0 = 1 ∧
        isInt8 ((s.cursor : Int) - (poff : Int) + add) →
      (bind s id).1 = none ∧
      readI8 (bind s id).2.buffer.data poff =
        (s.cursor : Int) - (poff : Int) + add) ∧
    (s.buffer.data.getD poff 0 ≠ 4 →
      ¬(s.buffer.data.getD poff 0 = 1 ∧
        isInt8 ((s.cursor : Int) - (poff : Int) + add)) →
      (bind s id).1 = some .invalidDisplacement) := by
  have hw := wrap32_eq_self ((s.cursor : Int) - (poff : Int) + add)
    hfit.1 hfit.2
  have heq := bind_unbound_eq s id le hok hle hb
  rw [hlinks] at heq
  refine ⟨?_, ?_, ?_⟩
  · intro h4
    rw [heq]
    dsimp only [processLinks, processLink]
    rw [if_pos h4]
    refine ⟨rfl, ?_⟩
    dsimp only
    rw [writeI32u, hw] at *
    exact readI32_writeI32u s.buffer.data poff _ hrange hfit.1 hfit.2
  · intro h1
    have h4 : ¬(s.buffer.data.getD poff 0 = 4) := by
      rw [h1.1]; decide
    rw [heq]
    dsimp only [processLinks, processLink]
    rw [if_neg h4, if_pos (⟨h1.1, hw.symm ▸ h1.2⟩ :
      s.buffer.data.getD poff 0 = 1 ∧
        isInt8 (wrap32 ((s.cursor : Int) - (poff : Int) + add)))]
    refine ⟨rfl, ?_⟩
    dsimp only
    rw [hw]
    exact readI8_set s.buffer.data poff _ (by omega) h1.2.1 h1.2.2
  · intro h4 h1
    rw [heq]
    dsimp only [processLinks, processLink]
    rw [if_neg h4, if_neg (show ¬(s.buffer.data.getD poff 0 = 1 ∧
      isInt8 (wrap32 ((s.cursor : Int) - (poff : Int) + add))) by
        rw [hw]; exact h1)]


/-- Witness for C1: binding label 1 of `c1State` at cursor offset 8 patches
the 4-byte displacement at offset 0 with 8 - 0 + 0 = 8. -/
theorem bind_inline_patch_witness :
    (c1State.lastError = none ∧ c1State.buffer.data.getD 0 0 = 4 ∧
     0 + 4 ≤ c1State.buffer.data.length) ∧
    ((bind c1State 1).1 = none ∧
     readI32 (bind c1State 1).2.buffer.data 0 =
       (c1State.cursor : Int) - ((0 : Nat) : Int) + 0) :=
  ⟨⟨rfl, by decide, by decide⟩,
   (bind_inline_patch c1State 1 ⟨false, 0, 0, none, [⟨0, 0, none⟩]⟩ 0 0 rfl
     (by decide) rfl rfl (by decide) (by decide)).1 (by decide)⟩

/-- Characterization of `embedLabel` on a bound label: the relocation entry
is appended with its target section and resolved value filled from the
entry, the slot is zero-filled and the cursor advances. -/
theorem embedLabel_bound_eq (s : AsmState) (id : Nat) (le : LabelEntry)
    (hok : s.lastError = none) (hle : getLabelEntry s id = some le)
    (hb : le.bound = true) :
    embedLabel s id =
      (let s1 := if getRemainingSpace s < s.gpSize
                 then { s with buffer := growBuffer s.buffer s.gpSize } else s
       (none, { s1 with
         relocations := s1.relocations ++
           [⟨2, s.gpSize, s1.sectionId, s1.cursor, some le.sectionId,
             le.offset⟩],
         buffer := { s1.buffer with
           data := writeBytes s1.buffer.data s1.cursor
             (List.replicate s.gpSize 0) },
         cursor := s1.cursor + s.gpSize })) := by
  unfold embedLabel
  rw [hok, hle]
  dsimp only
  rw [hb]
  rfl

/-- Characterization of `embedLabel` on an unbound label: the relocation
entry is appended with resolved value 0 and no target section, a pending
patch carrying its id is prepended to the entry's chain, the unresolved
counter is bumped, the slot is zero-filled and the cursor advances. -/
theorem embedLabel_unbound_eq (s : AsmState) (id : Nat) (le : LabelEntry)
    (hok : s.lastError = none) (hle : getLabelEntry s id = some le)
    (hb : le.bound = false) :
    embedLabel s id =
      (let s1 := if getRemainingSpace s < s.gpSize
                 then { s with buffer := growBuffer s.buffer s.gpSize } else s
       (none, { s1 with
         relocations := s1.relocations ++
           [⟨2, s.gpSize, s1.sectionId, s1.cursor, none, 0⟩],
         labels := s1.labels.set (id - 1)
           { le with links := ⟨s1.cursor, 0, some s1.relocations.length⟩ ::
               le.links },
         unresolvedLabelCount := s1.unresolvedLabelCount + 1,
         buffer := { s1.buffer with
           data := writeBytes s1.buffer.data s1.cursor
             (List.replicate s.gpSize 0) },
         cursor := s1.cursor + s.gpSize })) := by
  unfold embedLabel
  rw [hok, hle]
  dsimp only
  rw [hb]
  rfl

/-- After `embedLabel` on a fresh unbound label (state `S2`, with `B` the
possibly-grown buffer), embedding further data and then binding the label
resolves the relocation entry created by `embedLabel` to the bind-time
cursor offset. -/
theorem embedLabel_bind_after (s : AsmState) (id : Nat) (le : LabelEntry)
    (d : List Nat) (S2 : AsmState)
    (hok : s.lastError = none) (hid : id ≠ 0)
    (hlt : id - 1 < s.labels.length) (hb : le.bound = false)
    (hfit : s.cursor + s.gpSize + d.length < 18446744073709551616)
    (B : CodeBuffer) (hB : s.cursor + s.gpSize ≤ B.data.length)
    (hS2 : S2 = { s with
      buffer := { data := writeBytes B.data s.cursor (List.replicate s.gpSize 0),
                  length := B.length },
      cursor := s.cursor + s.gpSize,
      labels := s.labels.set (id - 1)
        { le with links := [⟨s.cursor, 0, some s.relocations.length⟩] },
      relocations := s.relocations ++
        [⟨2, s.gpSize, s.sectionId, s.cursor, none, 0⟩],
      unresolvedLabelCount := s.unresolvedLabelCount + 1 }) :
    (bind (embed S2 d).2 id).1 = none ∧
    (embed S2 d).2.cursor = s.cursor + s.gpSize + d.length ∧
    (bind (embed S2 d).2 id).2.relocations.get? s.relocations.length =
      some ⟨2, s.gpSize, s.sectionId, s.cursor, none,
            s.cursor + s.gpSize + d.length⟩ := by
  subst hS2
  have hcur2 : s.cursor + s.gpSize ≤
      (writeBytes B.data s.cursor (List.replicate s.gpSize 0)).length := by
    rw [writeBytes_length]; exact hB
  obtain ⟨he1, hc3, hrb3, hok3, hlab3, hrel3, hsec3, hgp3, hcnt3, hbnd3⟩ :=
    embed_spec { s with
      buffer := { data := writeBytes B.data s.cursor (List.replicate s.gpSize 0),
                  length := B.length },
      cursor := s.cursor + s.gpSize,
      labels := s.labels.set (id - 1)
        { le with links := [⟨s.cursor, 0, some s.relocations.length⟩] },
      relocations := s.relocations ++
        [⟨2, s.gpSize, s.sectionId, s.cursor, none, 0⟩],
      unresolvedLabelCount := s.unresolvedLabelCount + 1 } d hok hcur2
  have hle3 : getLabelEntry (embed { s with
      buffer := { data := writeBytes B.data s.cursor (List.replicate s.gpSize 0),
                  length := B.length },
      cursor := s.cursor + s.gpSize,
      labels := s.labels.set (id - 1)
        { le with links := [⟨s.cursor, 0, some s.relocations.length⟩] },
      relocations := s.relocations ++
        [⟨2, s.gpSize, s.sectionId, s.cursor, none, 0⟩],
      unresolvedLabelCount := s.unresolvedLabelCount + 1 } d).2 id =
      some { le with links := [⟨s.cursor, 0, some s.relocations.length⟩] } := by
    rw [getLabelEntry, if_neg hid, hlab3, List.get?_eq_getElem?]
    exact List.getElem?_set_self hlt
  have heq3 := bind_unbound_eq _ id _ hok3 hle3 hb
  have hre : (embed { s with
      buffer := { data := writeBytes B.data s.cursor (List.replicate s.gpSize 0),
                  length := B.length },
      cursor := s.cursor + s.gpSize,
      labels := s.labels.set (id - 1)
        { le with links := [⟨s.cursor, 0, some s.relocations.length⟩] },
      relocations := s.relocations ++
        [⟨2, s.gpSize, s.sectionId, s.cursor, none, 0⟩],
      unresolvedLabelCount := s.unresolvedLabelCount + 1 } d).2.relocations.get?
        s.relocations.length =
      some ⟨2, s.gpSize, s.sectionId, s.cursor, none, 0⟩ := by
    rw [hrel3]
    exact List.get?_concat_length _ _
  refine ⟨?_, hc3, ?_⟩
  · rw [heq3]
    dsimp only
    dsimp only [processLinks, processLink]
    rw [hre]
  · rw [heq3]
    dsimp only
    dsimp only [processLinks, processLink]
    rw [hre]
    dsimp only
    rw [hc3]
    dsimp only
    rw [Nat.zero_add, Nat.mod_eq_of_lt hfit]
    rw [hrel3, List.get?_eq_getElem?]
    refine List.getElem?_set_self ?_
    show s.relocations.length <
      (s.relocations ++
        [(⟨2, s.gpSize, s.sectionId, s.cursor, none, 0⟩ : RelocEntry)]).length
    simp

/-- C2: embedLabel reserves a GP-sized slot at the cursor, zero-fills it and
creates a relocation entry; on a bound label the entry's target section and
resolved value are filled immediately from the label entry; on an unbound
label (here with an empty chain, i.e. a fresh label) a pending patch
carrying the relocation id is attached to the chain, and after embedding
further data and then binding the label at cursor offset P, the relocation's
resolved value equals P. -/
theorem embedLabel_reloc_resolution (s : AsmState) (id : Nat)
    (le : LabelEntry) (d : List Nat)
    (hok : s.lastError = none) (hle : getLabelEntry s id = some le)
    (hcur : s.cursor ≤ s.buffer.data.length)
    (hfit : s.cursor + s.gpSize + d.length < 18446744073709551616) :
    (le.bound = true →
      (embedLabel s id).1 = none ∧
      (embedLabel s id).2.cursor = s.cursor + s.gpSize ∧
      readBytes (embedLabel s id).2.buffer.data s.cursor s.gpSize =
        List.replicate s.gpSize 0 ∧
      (embedLabel s id).2.relocations.get? s.relocations.length =
        some ⟨2, s.gpSize, s.sectionId, s.cursor, some le.sectionId,
              le.offset⟩) ∧
    (le.bound = false → le.links = [] →
      (embedLabel s id).1 = none ∧
      (embedLabel s id).2.cursor = s.cursor + s.gpSize ∧
      readBytes (embedLabel s id).2.buffer.data s.cursor s.gpSize =
        List.replicate s.gpSize 0 ∧
      (embedLabel s id).2.relocations.get? s.relocations.length =
        some ⟨2, s.gpSize, s.sectionId, s.cursor, none, 0⟩ ∧
      getLabelEntry (embedLabel s id).2 id =
        some { le with links := [⟨s.cursor, 0, some s.relocations.length⟩] } ∧
      (bind (embed (embedLabel s id).2 d).2 id).1 = none ∧
      (embed (embedLabel s id).2 d).2.cursor =
        s.cursor + s.gpSize + d.length ∧
      (bind (embed (embedLabel s id).2 d).2 id).2.relocations.get?
          s.relocations.length =
        some ⟨2, s.gpSize, s.sectionId, s.cursor, none,
              s.cursor + s.gpSize + d.length⟩) := by
  have hid : id ≠ 0 := by
    intro h
    rw [getLabelEntry, if_pos h] at hle
    exact Option.noConfusion hle
  have hlt : id - 1 < s.labels.length := by
    rw [getLabelEntry, if_neg hid] at hle
    rw [List.get?_eq_getElem?] at hle
    exact (List.getElem?_eq_some.mp hle).1
  constructor
  · intro hb
    rw [embedLabel_bound_eq s id le hok hle hb]
    dsimp only
    by_cases hg : getRemainingSpace s < s.gpSize
    · rw [if_pos hg]
      refine ⟨rfl, rfl, ?_, ?_⟩
      · have hfit2 : s.cursor + (List.replicate s.gpSize 0).length ≤
            (growBuffer s.buffer s.gpSize).data.length := by
          simp [growBuffer]; omega
        simpa using readBytes_writeBytes (List.replicate s.gpSize 0) _ _ hfit2
      · rw [List.get?_concat_length]
    · rw [if_neg hg]
      refine ⟨rfl, rfl, ?_, ?_⟩
      · have hfit2 : s.cursor + (List.replicate s.gpSize 0).length ≤
            s.buffer.data.length := by
          rw [getRemainingSpace] at hg; simp; omega
        simpa using readBytes_writeBytes (List.replicate s.gpSize 0) _ _ hfit2
      · rw [List.get?_concat_length]
  · intro hb hlinks
    rw [embedLabel_unbound_eq s id le hok hle hb]
    dsimp only
    rw [hlinks]
    by_cases hg : getRemainingSpace s < s.gpSize
    · rw [if_pos hg]
      have hfit2 : s.cursor + (List.replicate s.gpSize 0).length ≤
          (growBuffer s.buffer s.gpSize).data.length := by
        simp [growBuffer]; omega
      refine ⟨rfl, rfl, ?_, ?_, ?_, ?_⟩
      · simpa using readBytes_writeBytes (List.replicate s.gpSize 0) _ _ hfit2
      · rw [List.get?_concat_length]
      · rw [getLabelEntry, if_neg hid]
        dsimp only
        rw [List.get?_eq_getElem?]
        exact List.getElem?_set_self hlt
      · exact embedLabel_bind_after s id le d _ hok hid hlt hb hfit
          (growBuffer s.buffer s.gpSize) (by simp [growBuffer]; omega) rfl
    · rw [if_neg hg]
      have hfit2 : s.cursor + (List.replicate s.gpSize 0).length ≤
          s.buffer.data.length := by
        rw [getRemainingSpace] at hg; simp; omega
      refine ⟨rfl, rfl, ?_, ?_, ?_, ?_⟩
      · simpa using readBytes_writeBytes (List.replicate s.gpSize 0) _ _ hfit2
      · rw [List.get?_concat_length]
      · rw [getLabelEntry, if_neg hid]
        dsimp only
        rw [List.get?_eq_getElem?]
        exact List.getElem?_set_self hlt
      · exact embedLabel_bind_after s id le d _ hok hid hlt hb hfit s.buffer
          (by rw [getRemainingSpace] at hg; omega) rfl


/-- Witness for C2: embedLabel(L) at cursor offset 10 reserves and
zero-fills an 8-byte slot, creates relocation 0 with resolved value 0 and a
pending patch carrying its id on L's chain; after embedding 32 more bytes
the cursor is 50, and binding L there resolves relocation 0 to 50. -/
theorem embedLabel_reloc_resolution_witness :
    (c2State.lastError = none ∧
     getLabelEntry c2State 1 = some ⟨false, 0, 0, none, []⟩ ∧
     c2State.cursor ≤ c2State.buffer.data.length) ∧
    ((embedLabel c2State 1).1 = none ∧
     (embedLabel c2State 1).2.cursor = 18 ∧
     readBytes (embedLabel c2State 1).2.buffer.data 10 8 =
       List.replicate 8 0 ∧
     (embedLabel c2State 1).2.relocations.get? 0 =
       some ⟨2, 8, 0, 10, none, 0⟩ ∧
     getLabelEntry (embedLabel c2State 1).2 1 =
       some ⟨false, 0, 0, none, [⟨10, 0, some 0⟩]⟩ ∧
     (bind (embed (embedLabel c2State 1).2 (List.replicate 32 7)).2 1).1 =
       none ∧
     (embed (embedLabel c2State 1).2 (List.replicate 32 7)).2.cursor = 50 ∧
     (bind (embed (embedLabel c2State 1).2
         (List.replicate 32 7)).2 1).2.relocations.get? 0 =
       some ⟨2, 8, 0, 10, none, 50⟩) :=
  ⟨⟨rfl, by decide, by decide⟩,
   (embedLabel_reloc_resolution c2State 1 ⟨false, 0, 0, none, []⟩
      (List.replicate 32 7) rfl (by decide) (by decide) (by decide)).2
      rfl rfl⟩

end AsmJit
